import Mathlib

/-!
Verification development for the `avf_scraper` repository.

The Python sources are embedded shallowly:

* strings are `List Char` (`Str`), so that every operation of the code
  (`str.strip`, the regex fragments actually used, …) is an executable
  Lean function on lists of characters;
* `None`/`NaN` cells of a pandas `DataFrame` are `Option Str`;
* fallible operations return `Option`;
* the retry loop of `ClubScraper.fetch_html_with_curl` is driven by an
  oracle `Nat → AttemptOutcome` giving the outcome of each `subprocess.run`
  invocation, and the function returns a trace (attempt count, sleep list,
  result) instead of performing I/O.

Python's `\s` character class and `str.strip` are modelled by the ASCII
whitespace characters; the data handled by the scraper (labels, phone
numbers, e-mail addresses) contains no exotic Unicode whitespace.
-/

namespace AvfScraper

/-- Strings of the Python code, as explicit character lists. -/
abbrev Str := List Char

/-- Character list of a Lean string literal. -/
def chars (s : String) : Str := s.data

/-- ASCII whitespace: models Python's `\s` class and `str.strip`. -/
def isSpace (c : Char) : Bool :=
  c = ' ' || c = '\t' || c = '\n' || c = '\r' || c = '\x0b' || c = '\x0c'

/-- Python `str.lstrip()`. -/
def lstrip (s : Str) : Str := s.dropWhile isSpace

/-- Python `str.rstrip()`. -/
def rstrip (s : Str) : Str := (s.reverse.dropWhile isSpace).reverse

/-- Python `str.strip()`. -/
def pyStrip (s : Str) : Str := rstrip (lstrip s)

/-- One-pass automaton for the regex substitution `re.sub(r"\s+", " ", s)`
(pandas `.str.replace(r"\s+", " ", regex=True)`): the flag records whether
the previous character was whitespace (whose run has already emitted its
single `' '`). -/
def collapseGo : Bool → Str → Str
  | _, [] => []
  | inWs, c :: r =>
    if isSpace c then
      if inWs then collapseGo true r else ' ' :: collapseGo true r
    else
      c :: collapseGo false r

/-- The substitution `re.sub(r"\s+", " ", s)`: every maximal whitespace run becomes one space. -/
def collapseWs (s : Str) : Str := collapseGo false s

/-- State reached by the collapsing automaton after reading `s`. -/
def flagAfter (b : Bool) (s : Str) : Bool := s.foldl (fun _ c => isSpace c) b

/-! ### Regex fragments used by `club_scraper.py`

Python's `re.search` returns the leftmost match.  Each concrete pattern of
the code is embedded as an anchored matcher (match at the start of the
string) plus the generic leftmost scan `searchWith`. -/

/-- Match a literal at the start of the string, returning the rest. -/
def dropLit : Str → Str → Option Str
  | [], s => some s
  | _ :: _, [] => none
  | c :: l, d :: s => if c = d then dropLit l s else none

/-- The character class `[\d\s\(\)]` of the phone regexes. -/
def isPhoneChar (c : Char) : Bool :=
  c.isDigit || isSpace c || c = '(' || c = ')'

/-- Anchored match of `lbl\s*:\s*(\+[\d\s\(\)]+)` (the shape of both phone
regexes of `ClubScraper._extract_phone_numbers`), returning the capture
group.  The group requires the literal `+` and then a nonempty greedy run
of the class. -/
def matchLabelAt (lbl : Str) (s : Str) : Option Str :=
  match dropLit lbl s with
  | none => none
  | some r1 =>
    match r1.dropWhile isSpace with
    | ':' :: r2 =>
      match r2.dropWhile isSpace with
      | '+' :: r3 =>
        let run := r3.takeWhile isPhoneChar
        if run.isEmpty then none else some ('+' :: run)
      | _ => none
    | _ => none

/-- Anchored match of `openMess\('([^']*)',\s*'([^']*)'\)`
(`ClubScraper._extract_email`), returning the two capture groups
`(domain, user)`. -/
def matchOpenMessAt (s : Str) : Option (Str × Str) :=
  match dropLit (chars "openMess('") s with
  | none => none
  | some r1 =>
    let d := r1.takeWhile (fun c => c != '\'')
    let r2 := r1.dropWhile (fun c => c != '\'')
    match r2 with
    | '\'' :: ',' :: r3 =>
      match r3.dropWhile isSpace with
      | '\'' :: r4 =>
        let u := r4.takeWhile (fun c => c != '\'')
        let r5 := r4.dropWhile (fun c => c != '\'')
        match r5 with
        | '\'' :: ')' :: _ => some (d, u)
        | _ => none
      | _ => none
    | _ => none

/-- Model of `re.search`: try the anchored matcher at every position, leftmost
success wins. -/
def searchWith (m : Str → Option α) : Str → Option α
  | [] => m []
  | c :: r =>
    match m (c :: r) with
    | some a => some a
    | none => searchWith m r

/-- The sentinel `"N/A"` used for every absent field. -/
def NA : Str := chars "N/A"

/-- Label of the regex `Tél privé\s*:\s*(\+[\d\s\(\)]+)`. -/
def privateLabel : Str := chars "Tél privé"

/-- Label of the regex `Mobile\s*:\s*(\+[\d\s\(\)]+)`. -/
def mobileLabel : Str := chars "Mobile"

/-! ### `ClubScraper` (src/scraper/club_scraper.py)

The BeautifulSoup fragments are abstracted to exactly the features the
selectors of the code read:

* a heading block (`div.row.heading`) exposes the stripped text of its
  first `h5` element — `none` when the block has no `h5`, `some []` when
  the `h5` exists but contains no text;
* a data block (`div.row` sibling) exposes the stripped text of its first
  `span.ftName`, the `href` of its first `a[href*='javascript:openMess']`
  link, and the (space-separated, stripped) texts of its `div.col-md-6`
  descendants in order. -/

/-- One `div.row.heading` element, as seen by the selectors of the code. -/
structure HeadingBlock where
  h5Text : Option Str

/-- The `div.row` data block following a heading, as seen by the code. -/
structure DataRow where
  ftName : Option Str
  openMessHref : Option Str
  colMd6Texts : List Str

/-- One extracted contact record (the dict built by
`_extract_trainer_info`). -/
structure Record where
  club : Str
  role : Str
  name : Str
  mobile_phone : Str
  private_phone : Str
  email : Str
deriving DecidableEq

/-- The pair of phone fields returned by `_extract_phone_numbers`. -/
structure Phones where
  mobile_phone : Str
  private_phone : Str
deriving DecidableEq

namespace ClubScraper

/-- Method `_extract_role`: stripped `h5` text, else the sentinel. -/
def extract_role (heading_row : HeadingBlock) : Str :=
  match heading_row.h5Text with
  | some t => t
  | none => NA

/-- Method `_extract_name`: stripped `span.ftName` text, `None` when absent. -/
def extract_name (data_row : DataRow) : Option Str := data_row.ftName

/-- Method `_extract_email`: search the `openMess` call in the link target and
rebuild `user@domain`; sentinel when there is no link or no match. -/
def extract_email (data_row : DataRow) : Str :=
  match data_row.openMessHref with
  | none => NA
  | some href =>
    match searchWith matchOpenMessAt href with
    | some (domain, user) => user ++ '@' :: domain
    | none => NA

/-- Method `_extract_phone_numbers`: when a second `div.col-md-6` exists, search
its text for the two labelled patterns independently; each capture is
stripped, a missing match leaves the sentinel. -/
def extract_phone_numbers (data_row : DataRow) : Phones :=
  match data_row.colMd6Texts with
  | _ :: contact_text :: _ =>
    { mobile_phone :=
        match searchWith (matchLabelAt mobileLabel) contact_text with
        | some g => pyStrip g
        | none => NA,
      private_phone :=
        match searchWith (matchLabelAt privateLabel) contact_text with
        | some g => pyStrip g
        | none => NA }
  | _ => { mobile_phone := NA, private_phone := NA }

/-- Method `_extract_trainer_info`: the data row must exist and the name must be
non-falsy (`if not name`), then the record is populated.  The
`except Exception` branch of the code has no counterpart: the embedded
operations are total. -/
def extract_trainer_info (club_name : Str) (heading_row : HeadingBlock)
    (data_row : Option DataRow) : Option Record :=
  match data_row with
  | none => none
  | some dr =>
    match extract_name dr with
    | none => none
    | some name =>
      if name = [] then none
      else
        some { club := club_name,
               role := extract_role heading_row,
               name := name,
               mobile_phone := (extract_phone_numbers dr).mobile_phone,
               private_phone := (extract_phone_numbers dr).private_phone,
               email := extract_email dr }

end ClubScraper

/-! ### The retry loop of `ClubScraper.fetch_html_with_curl`

Each iteration of `for attempt in range(retries + 1)` runs `subprocess.run`
once; the oracle gives that invocation's outcome. -/

/-- Outcome of one `subprocess.run(["curl", ...])` invocation. -/
inductive AttemptOutcome where
  | success (stdout : Str)
  | exitError
  | timeoutExpired
  | toolMissing
deriving DecidableEq

/-- Observable behaviour of one `fetch_html_with_curl` call: number of
`subprocess.run` invocations, the `time.sleep` durations in order, and the
returned value. -/
structure FetchTrace where
  attemptsMade : Nat
  sleeps : List Nat
  result : Option Str
deriving DecidableEq

/-- An outcome the loop retries on: non-zero exit, timeout, or a body that
is empty after stripping.  `toolMissing` (`FileNotFoundError`) is not
retryable. -/
def retryable : AttemptOutcome → Prop
  | .success body => pyStrip body = []
  | .exitError => True
  | .timeoutExpired => True
  | .toolMissing => False

instance : DecidablePred retryable := by
  intro a
  cases a <;> simp [retryable] <;> infer_instance

/-- The loop body from iteration `attempt` on, for `remaining` more
iterations (`remaining` is `retries + 1 - attempt` at the entry point).
A successful non-empty body returns it at once; `FileNotFoundError`
returns `None` at once; otherwise the loop sleeps `(attempt + 1) * 2`
seconds when further attempts remain, and falls through to `return None`
after the last one. -/
def fetchLoop (o : Nat → AttemptOutcome) (retries : Nat) :
    Nat → Nat → FetchTrace
  | _, 0 => { attemptsMade := 0, sleeps := [], result := none }
  | attempt, remaining + 1 =>
    let failStep : FetchTrace :=
      if attempt < retries then
        let t := fetchLoop o retries (attempt + 1) remaining
        { attemptsMade := t.attemptsMade + 1,
          sleeps := (attempt + 1) * 2 :: t.sleeps,
          result := t.result }
      else
        let t := fetchLoop o retries (attempt + 1) remaining
        { attemptsMade := t.attemptsMade + 1,
          sleeps := t.sleeps,
          result := t.result }
    match o attempt with
    | .success body =>
      if pyStrip body = [] then failStep
      else { attemptsMade := 1, sleeps := [], result := some body }
    | .exitError => failStep
    | .timeoutExpired => failStep
    | .toolMissing => { attemptsMade := 1, sleeps := [], result := none }

/-- Method `fetch_html_with_curl(url, retries)`: run the loop for
`range(retries + 1)` starting at attempt `0`. -/
def fetch_html_with_curl (o : Nat → AttemptOutcome) (retries : Nat) :
    FetchTrace :=
  fetchLoop o retries 0 (retries + 1)

/-! ### `DataProcessor` (src/scraper/data_processor.py)

A pandas `DataFrame` over the fixed schema is a list of rows whose cells
are `Option Str` (`none` is `NaN`, as produced by `pd.read_csv` for an
empty field).  Each pandas expression of `clean_data` becomes one
table-level function, applied in the order of the code. -/

/-- One row over the schema `club, role, name, mobile_phone,
private_phone, email`; `none` is a missing value (`NaN`). -/
structure DfRow where
  club : Option Str
  role : Option Str
  name : Option Str
  mobile_phone : Option Str
  private_phone : Option Str
  email : Option Str
deriving DecidableEq

/-- A `DataFrame` over the fixed schema. -/
abbrev Table := List DfRow

/-- Effect of `fillna("N/A")` on one cell. -/
def fillCell (c : Option Str) : Option Str := some (c.getD NA)

/-- Effect of `replace("", "N/A")` on one cell (exact match; `NaN` untouched). -/
def replaceEmptyCell (c : Option Str) : Option Str :=
  c.map (fun s => if s = [] then NA else s)

/-- Conversion `astype(str)` renders a missing value as the string `"nan"`. -/
def astypeStr (c : Option Str) : Str := c.getD (chars "nan")

/-- Effect of `astype(str).str.strip()` on one cell. -/
def stripCell (c : Option Str) : Option Str := some (pyStrip (astypeStr c))

/-- Effect of `astype(str).str.strip()` then `.str.replace(r"\s+", " ", regex=True)`
on one phone cell. -/
def phoneCell (c : Option Str) : Option Str :=
  some (collapseWs (pyStrip (astypeStr c)))

/-- Statement `cleaned_df.fillna("N/A")`. -/
def fillnaT (t : Table) : Table :=
  t.map (fun r => { club := fillCell r.club, role := fillCell r.role,
                    name := fillCell r.name,
                    mobile_phone := fillCell r.mobile_phone,
                    private_phone := fillCell r.private_phone,
                    email := fillCell r.email })

/-- Statement `cleaned_df.replace("", "N/A")`. -/
def replaceT (t : Table) : Table :=
  t.map (fun r => { club := replaceEmptyCell r.club,
                    role := replaceEmptyCell r.role,
                    name := replaceEmptyCell r.name,
                    mobile_phone := replaceEmptyCell r.mobile_phone,
                    private_phone := replaceEmptyCell r.private_phone,
                    email := replaceEmptyCell r.email })

/-- The string-column loop: `cleaned_df[col] = cleaned_df[col].astype(str)
.str.strip()` for `col` in `["club", "role", "name", "email"]`. -/
def stripStringT (t : Table) : Table :=
  t.map (fun r => { r with club := stripCell r.club, role := stripCell r.role,
                           name := stripCell r.name, email := stripCell r.email })

/-- The phone-column loop: strip, then collapse whitespace runs, for
`col` in `["mobile_phone", "private_phone"]`. -/
def phoneT (t : Table) : Table :=
  t.map (fun r => { r with mobile_phone := phoneCell r.mobile_phone,
                           private_phone := phoneCell r.private_phone })

/-- The filter of `dropna(how="all")` keeps the rows having at least one non-`NaN`
cell. -/
def rowAllNa (r : DfRow) : Bool :=
  r.club.isNone && r.role.isNone && r.name.isNone &&
  r.mobile_phone.isNone && r.private_phone.isNone && r.email.isNone

/-- Statement `cleaned_df.dropna(how="all")`. -/
def dropAllNaT (t : Table) : Table := t.filter (fun r => !rowAllNa r)

namespace DataProcessor

/-- Method `clean_data`, line for line: fill `NaN`, replace `""`, strip the four
string columns, normalise the two phone columns, then `dropna(how="all")`. -/
def clean_data (df : Table) : Table :=
  dropAllNaT (phoneT (stripStringT (replaceT (fillnaT df))))

end DataProcessor

/-- Destructive update of one heap slot. -/
def listSet : List α → Nat → α → List α
  | [], _, _ => []
  | _ :: r, 0, v => v :: r
  | a :: r, n + 1, v => a :: listSet r n v

/-- Method `clean_data` with the Python object model made explicit: the heap holds
`DataFrame` objects, names are indices.  `df.copy()`, `fillna`, `replace`
and `dropna` allocate fresh objects and rebind `cleaned_df`; the column
assignments `cleaned_df[col] = ...` mutate the bound object in place.
Returns the final heap and the index bound to `cleaned_df`. -/
def clean_data_heap (heap : List Table) (df : Nat) : List Table × Nat :=
  let c0 := heap.length
  let heap := heap ++ [heap.getD df []]
  let c1 := heap.length
  let heap := heap ++ [fillnaT (heap.getD c0 [])]
  let c2 := heap.length
  let heap := heap ++ [replaceT (heap.getD c1 [])]
  let heap := listSet heap c2 (stripStringT (heap.getD c2 []))
  let heap := listSet heap c2 (phoneT (heap.getD c2 []))
  let c3 := heap.length
  let heap := heap ++ [dropAllNaT (heap.getD c2 [])]
  (heap, c3)

/-- Constant `config.CSV_FIELDNAMES`. -/
def CSV_FIELDNAMES : List String :=
  ["club", "role", "name", "mobile_phone", "private_phone", "email"]

/-- A parsed CSV file: the column names found in its header and its data
rows (fields of columns outside the schema are not represented; a file
whose schema is complete has all its data in `rows`). -/
structure RawTable where
  cols : List String
  rows : Table
deriving DecidableEq

/-- One discovered `*.csv` file: its filename stem and the result of
`pd.read_csv` (`none` when parsing raises). -/
structure CsvFile where
  stem : Str
  parsed : Option RawTable
deriving DecidableEq

/-- Value `csv_file.name` (stem plus extension, as globbed). -/
def fileName (f : CsvFile) : Str := f.stem ++ chars ".csv"

namespace DataProcessor

/-- Method `validate_csv_structure`: parseable, no missing schema column, and at
least one data row (`df.empty` is false). -/
def validate_csv_structure (f : CsvFile) : Bool :=
  match f.parsed with
  | none => false
  | some df =>
    (CSV_FIELDNAMES.all (fun c => df.cols.contains c)) && !df.rows.isEmpty

/-- Method `_sanitize_sheet_name`: drop Excel-reserved characters, cap at 31
characters, fall back to `"Sheet"` when empty. -/
def sanitize_sheet_name (name : Str) : Str :=
  let name := name.filter (fun c => !(chars "[]*?:/\\").contains c)
  let name := name.take 31
  if name = [] then chars "Sheet" else name

end DataProcessor

/-- Sort key of `combined_df.sort_values(["club", "role", "name"])`:
lexicographic on the three string cells.  `clean_data` has run on every
row being sorted, so every cell is present; `cellVal` only unwraps it. -/
def cellVal (c : Option Str) : Str := c.getD []

/-- The `(club, role, name)` key, in the lexicographic order of `Lex`. -/
def rowKey (r : DfRow) : Lex (Str × Lex (Str × Str)) :=
  toLex (cellVal r.club, toLex (cellVal r.role, cellVal r.name))

/-- Row `a` sorts no later than `b` under `sort_values(["club","role","name"])`. -/
def rowLe (a b : DfRow) : Prop := rowKey a ≤ rowKey b

instance : DecidableRel rowLe :=
  fun a b => inferInstanceAs (Decidable (rowKey a ≤ rowKey b))

instance : IsTotal DfRow rowLe := ⟨fun a b => le_total (rowKey a) (rowKey b)⟩

instance : IsTrans DfRow rowLe := ⟨fun _ _ _ h1 h2 => le_trans h1 h2⟩

namespace DataProcessor

/-- Method `_combine_to_single_sheet` over the discovered files: clean and
concatenate every valid file's rows, sort by `(club, role, name)`, and
write one sheet (`some table`); return `False` (`none`) when no valid file
contributed.  The unstable pandas quicksort is modelled by insertion sort:
the code promises only the ordering, which any sort realises. -/
def combine_to_single_sheet (files : List CsvFile) : Option Table :=
  let all_data := (files.filter (fun f => validate_csv_structure f)).map
    (fun f => clean_data ((f.parsed.getD ⟨[], []⟩).rows))
  if all_data.isEmpty then none
  else some (List.insertionSort rowLe all_data.flatten)

/-- Method `_combine_to_separate_sheets`: one `(sheet name, cleaned table)` pair
per valid file, in discovery order; invalid files are skipped. -/
def combine_to_separate_sheets (files : List CsvFile) : List (Str × Table) :=
  (files.filter (fun f => validate_csv_structure f)).map
    (fun f => (sanitize_sheet_name f.stem,
               clean_data ((f.parsed.getD ⟨[], []⟩).rows)))

end DataProcessor

/-- One entry of the summary's `clubs` list: club name read from the first
data row (`df["club"].iloc[0]`, a cell that may be `NaN`; the stem when the
table is empty), the row count, and the filename. -/
structure ClubEntry where
  name : Option Str
  trainers : Nat
  file : Str
deriving DecidableEq

/-- The dictionary returned by `get_data_summary`. -/
structure Summary where
  total_files : Nat
  total_trainers : Nat
  clubs : List ClubEntry
  files_with_errors : List Str
deriving DecidableEq

namespace DataProcessor

/-- The loop of `get_data_summary`, recursing over the discovered files in
order. -/
def summary_aux : List CsvFile → Summary
  | [] => { total_files := 0, total_trainers := 0, clubs := [],
            files_with_errors := [] }
  | f :: rest =>
    let s := summary_aux rest
    if validate_csv_structure f then
      let df := f.parsed.getD ⟨[], []⟩
      let club_name : Option Str :=
        match df.rows with
        | [] => some f.stem
        | r :: _ => r.club
      { s with
        clubs := { name := club_name, trainers := df.rows.length,
                   file := fileName f } :: s.clubs,
        total_trainers := df.rows.length + s.total_trainers }
    else
      { s with files_with_errors := fileName f :: s.files_with_errors }

/-- Method `get_data_summary`: fold over every discovered file; valid files
contribute a club entry and their row count, invalid ones land in
`files_with_errors`. -/
def get_data_summary (files : List CsvFile) : Summary :=
  { summary_aux files with total_files := files.length }

end DataProcessor

/-! ### Row-wise description of `clean_data`

`cleanRowSpec` restates the per-cell effect of `clean_data` (fill, replace
empty, strip / collapse) for the refinement proof
`clean_data_eq_map_spec`; it is compared against the pipeline translated
from the code, which it does not replace. -/

/-- Missing-value normalisation seen by one cell: `NaN ↦ "N/A"` (fillna),
then `"" ↦ "N/A"` (replace). -/
def npaCell (c : Option Str) : Str :=
  let v := c.getD NA
  if v = [] then NA else v

/-- Net effect of `clean_data` on a string-column cell. -/
def specCellString (c : Option Str) : Str := pyStrip (npaCell c)

/-- Net effect of `clean_data` on a phone-column cell. -/
def specCellPhone (c : Option Str) : Str := collapseWs (pyStrip (npaCell c))

/-- Net effect of `clean_data` on one row. -/
def cleanRowSpec (r : DfRow) : DfRow :=
  { club := some (specCellString r.club),
    role := some (specCellString r.role),
    name := some (specCellString r.name),
    mobile_phone := some (specCellPhone r.mobile_phone),
    private_phone := some (specCellPhone r.private_phone),
    email := some (specCellString r.email) }

/-- A cell that is not a nonempty whitespace-only string (the inputs on
which cleaning is idempotent). -/
def cellOk (c : Option Str) : Prop := ∀ s, c = some s → pyStrip s = [] → s = []

/-- All six schema cells of the row satisfy `cellOk`. -/
def rowOk (r : DfRow) : Prop :=
  cellOk r.club ∧ cellOk r.role ∧ cellOk r.name ∧
  cellOk r.mobile_phone ∧ cellOk r.private_phone ∧ cellOk r.email

/-! ### Concrete sample data for the aggregation witnesses -/

/-- A fully clean sample row. -/
def wrow (c ro n : String) : DfRow :=
  { club := some (chars c), role := some (chars ro), name := some (chars n),
    mobile_phone := some (chars "+1"), private_phone := some NA,
    email := some (chars "e@x") }

/-- A valid Row Store File with three records. -/
def csvA : CsvFile :=
  ⟨chars "A", some ⟨CSV_FIELDNAMES,
    [wrow "a" "r" "n", wrow "b" "r" "n", wrow "c" "r" "n"]⟩⟩

/-- A valid Row Store File with five records. -/
def csvB : CsvFile :=
  ⟨chars "B", some ⟨CSV_FIELDNAMES,
    [wrow "d" "r" "n", wrow "e" "r" "n", wrow "f" "r" "n",
     wrow "g" "r" "n", wrow "h" "r" "n"]⟩⟩

/-- A Row Store File whose header is missing the `email` column. -/
def csvNoEmail : CsvFile :=
  ⟨chars "bad", some ⟨["club", "role", "name", "mobile_phone", "private_phone"],
    [wrow "z" "r" "n"]⟩⟩

/-- A header-only Row Store File (no data rows). -/
def csvHeaderOnly : CsvFile := ⟨chars "empty", some ⟨CSV_FIELDNAMES, []⟩⟩

/-! ### Generic facts about the string model -/

theorem dropWhile_idem (p : α → Bool) : ∀ l : List α,
    (l.dropWhile p).dropWhile p = l.dropWhile p := by
  intro l
  induction l with
  | nil => rfl
  | cons c r ih =>
    by_cases h : p c
    · simp [List.dropWhile, h, ih]
    · simp [List.dropWhile, h]

theorem lstrip_idem (s : Str) : lstrip (lstrip s) = lstrip s :=
  dropWhile_idem isSpace s

theorem rstrip_idem (s : Str) : rstrip (rstrip s) = rstrip s := by
  simp [rstrip, dropWhile_idem]

/-- The value `rstrip s` is a prefix of `s`: the dropped part is the reversed
whitespace run taken from the end. -/
theorem rstrip_isPrefix (s : Str) : ∃ t, rstrip s ++ t = s := by
  refine ⟨(s.reverse.takeWhile isSpace).reverse, ?_⟩
  simp only [rstrip]
  rw [← List.reverse_append, List.takeWhile_append_dropWhile, List.reverse_reverse]

theorem length_dropWhile_le (p : α → Bool) (l : List α) :
    (l.dropWhile p).length ≤ l.length :=
  (List.dropWhile_suffix p).length_le

theorem lstrip_of_head_nonspace {c : Char} (r : Str) (h : isSpace c = false) :
    lstrip (c :: r) = c :: r := by
  simp [lstrip, List.dropWhile, h]

/-- If `s` is `lstrip`-fixed, so is its `rstrip` (a prefix keeps the head). -/
theorem lstrip_rstrip_of_lstrip_fixed {s : Str} (h : lstrip s = s) :
    lstrip (rstrip s) = rstrip s := by
  obtain ⟨t, ht⟩ := rstrip_isPrefix s
  cases hr : rstrip s with
  | nil => rfl
  | cons c y =>
    cases s with
    | nil => simp [rstrip] at hr
    | cons a r =>
      have hc : c = a := by
        rw [hr] at ht
        exact (List.cons.injEq _ _ _ _).mp ht |>.1
      by_cases hsp : isSpace a
      · exfalso
        have : lstrip (a :: r) = lstrip r := by simp [lstrip, List.dropWhile, hsp]
        rw [h] at this
        have hlen := length_dropWhile_le isSpace r
        rw [show lstrip r = r.dropWhile isSpace from rfl] at this
        have : (a :: r).length ≤ r.length := this ▸ hlen
        simp at this
      · subst hc
        exact lstrip_of_head_nonspace y (by simpa using hsp)

theorem pyStrip_lstrip_fixed (s : Str) : lstrip (pyStrip s) = pyStrip s :=
  lstrip_rstrip_of_lstrip_fixed (lstrip_idem s)

theorem pyStrip_rstrip_fixed (s : Str) : rstrip (pyStrip s) = pyStrip s :=
  rstrip_idem (lstrip s)

theorem pyStrip_idem (s : Str) : pyStrip (pyStrip s) = pyStrip s := by
  have h1 := pyStrip_lstrip_fixed s
  have h2 := pyStrip_rstrip_fixed s
  calc pyStrip (pyStrip s) = rstrip (lstrip (pyStrip s)) := rfl
    _ = rstrip (pyStrip s) := by rw [h1]
    _ = pyStrip s := h2

theorem dropWhile_append_singleton_nonspace {c : Char} (h : isSpace c = false) :
    ∀ xs : Str, (xs ++ [c]).dropWhile isSpace = xs.dropWhile isSpace ++ [c] := by
  intro xs
  induction xs with
  | nil => simp [List.dropWhile, h]
  | cons a r ih =>
    by_cases ha : isSpace a
    · simp [List.dropWhile, ha, ih]
    · simp [List.dropWhile, ha]

theorem rstrip_cons_nonspace {c : Char} (r : Str) (h : isSpace c = false) :
    rstrip (c :: r) = c :: rstrip r := by
  simp only [rstrip, List.reverse_cons]
  rw [dropWhile_append_singleton_nonspace h]
  simp

theorem rstrip_append_nonspace {c : Char} (y : Str) (h : isSpace c = false) :
    rstrip (y ++ [c]) = y ++ [c] := by
  simp only [rstrip, List.reverse_append]
  simp [List.dropWhile, h]

/-- A nonempty `rstrip`-fixed string ends in a non-whitespace character. -/
theorem rstrip_fixed_decomp {s : Str} (hne : s ≠ []) (h : rstrip s = s) :
    ∃ y c, s = y ++ [c] ∧ isSpace c = false := by
  cases hs : s.reverse with
  | nil => exact absurd (by simpa using congrArg List.reverse hs) hne
  | cons c t =>
    refine ⟨t.reverse, c, ?_, ?_⟩
    · have := congrArg List.reverse hs
      simpa using this
    · by_contra hsp
      have hsp' : isSpace c = true := by
        cases hv : isSpace c
        · exact absurd hv hsp
        · rfl
      have : rstrip s = (t.dropWhile isSpace).reverse := by
        simp [rstrip, hs, List.dropWhile, hsp']
      rw [h] at this
      have hlen : s.length ≤ t.length := by
        have := congrArg List.length this
        simp at this
        have hd := length_dropWhile_le isSpace t
        omega
      have : s.length = t.length + 1 := by
        have := congrArg List.length hs
        simpa using this
      omega

theorem lstrip_fixed_head {a : Char} {r : Str} (h : lstrip (a :: r) = a :: r) :
    isSpace a = false := by
  by_contra hsp
  have hsp' : isSpace a = true := by
    cases hv : isSpace a
    · exact absurd hv hsp
    · rfl
  have heq : lstrip (a :: r) = lstrip r := by simp [lstrip, List.dropWhile, hsp']
  rw [h] at heq
  have hlen := length_dropWhile_le isSpace r
  rw [show lstrip r = r.dropWhile isSpace from rfl] at heq
  have : (a :: r).length ≤ r.length := heq ▸ hlen
  simp at this

theorem collapseGo_append (t : Str) : ∀ (s : Str) (b : Bool),
    collapseGo b (s ++ t) = collapseGo b s ++ collapseGo (flagAfter b s) t := by
  intro s
  induction s with
  | nil => intro b; rfl
  | cons c r ih =>
    intro b
    by_cases h : isSpace c
    · cases b <;> simp [collapseGo, h, ih, flagAfter, List.foldl]
    · simp [collapseGo, h, ih, flagAfter, List.foldl]

theorem collapseGo_head_nonspace {s : Str} {c : Char} :
    (collapseGo true s).head? = some c → isSpace c = false := by
  induction s with
  | nil => intro h; simp [collapseGo] at h
  | cons a r ih =>
    intro h
    by_cases ha : isSpace a
    · exact ih (by simpa [collapseGo, ha] using h)
    · have : a = c := by simpa [collapseGo, ha] using h
      subst this
      simpa using ha

theorem collapseGo_true_of_head_nonspace : ∀ {x : Str},
    (∀ c, x.head? = some c → isSpace c = false) →
    collapseGo true x = collapseGo false x := by
  intro x h
  cases x with
  | nil => rfl
  | cons c r => simp [collapseGo, h c rfl]

theorem collapseGo_idem : ∀ (s : Str) (b : Bool),
    collapseGo false (collapseGo b s) = collapseGo b s := by
  intro s
  induction s with
  | nil => intro b; rfl
  | cons c r ih =>
    intro b
    by_cases h : isSpace c
    · cases b with
      | true => simpa [collapseGo, h] using ih true
      | false =>
        have hx : collapseGo true (collapseGo true r) = collapseGo true r := by
          rw [collapseGo_true_of_head_nonspace
            (fun c hc => collapseGo_head_nonspace hc)]
          exact ih true
        have hsp : isSpace ' ' = true := rfl
        simp [collapseGo, h, hx, hsp]
    · simp [collapseGo, h, ih false]

theorem collapseWs_idem (s : Str) : collapseWs (collapseWs s) = collapseWs s :=
  collapseGo_idem s false

theorem collapseWs_ne_nil {c : Char} (r : Str) : collapseWs (c :: r) ≠ [] := by
  by_cases h : isSpace c <;> simp [collapseWs, collapseGo, h]

theorem collapseGo_snoc_nonspace {c : Char} (y : Str) (b : Bool)
    (h : isSpace c = false) :
    collapseGo b (y ++ [c]) = collapseGo b y ++ [c] := by
  rw [collapseGo_append]
  cases flagAfter b y <;> simp [collapseGo, h]

/-- Collapsing whitespace in an already stripped string needs no re-stripping:
the collapse of a `strip`-fixed string is itself `strip`-fixed. -/
theorem pyStrip_collapseWs_pyStrip (s : Str) :
    pyStrip (collapseWs (pyStrip s)) = collapseWs (pyStrip s) := by
  cases hx : pyStrip s with
  | nil => rfl
  | cons a x =>
    have hla : lstrip (a :: x) = a :: x := hx ▸ pyStrip_lstrip_fixed s
    have ha : isSpace a = false := lstrip_fixed_head hla
    have hra : rstrip (a :: x) = a :: x := hx ▸ pyStrip_rstrip_fixed s
    obtain ⟨y, z, hyz, hz⟩ := rstrip_fixed_decomp (by simp) hra
    have hhead : ∃ w, collapseWs (a :: x) = a :: w := by
      refine ⟨collapseGo false x, ?_⟩
      simp [collapseWs, collapseGo, ha]
    obtain ⟨w, hw⟩ := hhead
    have htail : collapseWs (a :: x) = collapseGo false y ++ [z] := by
      rw [hyz]
      exact collapseGo_snoc_nonspace y false hz
    have h1 : lstrip (collapseWs (a :: x)) = collapseWs (a :: x) := by
      rw [hw]; exact lstrip_of_head_nonspace w ha
    have h2 : rstrip (collapseWs (a :: x)) = collapseWs (a :: x) := by
      rw [htail]; exact rstrip_append_nonspace _ hz
    show rstrip (lstrip (collapseWs (a :: x))) = collapseWs (a :: x)
    rw [h1, h2]

/-! ### Facts about the regex embedding -/

theorem searchWith_of_match {m : Str → Option α} {s : Str} {a : α}
    (h : m s = some a) : searchWith m s = some a := by
  cases s with
  | nil => simpa [searchWith] using h
  | cons c r => simp [searchWith, h]

theorem searchWith_some_suffix {m : Str → Option α} : ∀ {s : Str} {a : α},
    searchWith m s = some a → ∃ t, t <:+ s ∧ m t = some a := by
  intro s
  induction s with
  | nil =>
    intro a h
    exact ⟨[], List.suffix_refl [], by simpa [searchWith] using h⟩
  | cons c r ih =>
    intro a h
    rw [searchWith] at h
    split at h
    · rename_i b hm
      exact ⟨c :: r, List.suffix_refl _, by rw [hm]; exact h⟩
    · obtain ⟨t, hts, hmt⟩ := ih h
      exact ⟨t, hts.trans (List.suffix_cons c r), hmt⟩

theorem searchWith_skip {m : Str → Option α}
    (hpre : ∀ (c : Char) (r : Str), c ∈ pre → m (c :: r) = none) :
    ∀ (rest : Str), searchWith m (pre ++ rest) = searchWith m rest := by
  induction pre with
  | nil => intro rest; rfl
  | cons c p ih =>
    intro rest
    have hc := hpre c (p ++ rest) (List.mem_cons_self c p)
    rw [List.cons_append, searchWith, hc]
    exact ih (fun c r hcr => hpre c r (List.mem_cons_of_mem _ hcr)) rest

theorem dropLit_self_append : ∀ (l r : Str), dropLit l (l ++ r) = some r := by
  intro l
  induction l with
  | nil => intro r; rfl
  | cons c t ih => intro r; simp [dropLit, ih]

theorem dropLit_eq_append : ∀ {l s r : Str}, dropLit l s = some r → s = l ++ r := by
  intro l
  induction l with
  | nil =>
    intro s r h
    simp only [dropLit, Option.some.injEq] at h
    simp [h]
  | cons c t ih =>
    intro s r h
    cases s with
    | nil => simp [dropLit] at h
    | cons d u =>
      by_cases hcd : c = d
      · subst hcd
        have := ih (by simpa [dropLit] using h)
        simp [this]
      · simp [dropLit, hcd] at h

/-- Matcher `matchLabelAt` succeeds on a string shaped exactly like the pattern,
capturing the greedy nonempty run after the `+`. -/
theorem matchLabelAt_of_shape (lbl w1 w2 run post : Str)
    (hw1 : ∀ c ∈ w1, isSpace c = true) (hw2 : ∀ c ∈ w2, isSpace c = true)
    (hrun : run ≠ []) (hrunc : ∀ c ∈ run, isPhoneChar c = true)
    (hpost : ∀ c, post.head? = some c → isPhoneChar c = false) :
    matchLabelAt lbl (lbl ++ w1 ++ ':' :: (w2 ++ '+' :: (run ++ post)))
      = some ('+' :: run) := by
  have h1 : dropLit lbl (lbl ++ (w1 ++ ':' :: (w2 ++ '+' :: (run ++ post))))
      = some (w1 ++ ':' :: (w2 ++ '+' :: (run ++ post))) := dropLit_self_append _ _
  have h2 : (w1 ++ ':' :: (w2 ++ '+' :: (run ++ post))).dropWhile isSpace
      = ':' :: (w2 ++ '+' :: (run ++ post)) := by
    rw [List.dropWhile_append_of_pos hw1]
    exact List.dropWhile_cons_of_neg (by simp [isSpace])
  have h3 : (w2 ++ '+' :: (run ++ post)).dropWhile isSpace
      = '+' :: (run ++ post) := by
    rw [List.dropWhile_append_of_pos hw2]
    exact List.dropWhile_cons_of_neg (by simp [isSpace])
  have h4 : (run ++ post).takeWhile isPhoneChar = run := by
    rw [List.takeWhile_append_of_pos hrunc]
    cases post with
    | nil => simp
    | cons c t =>
      rw [List.takeWhile_cons_of_neg]
      · simp
      · simp [hpost c rfl]
  simp only [matchLabelAt, List.append_assoc, h1, h2, h3, h4]
  simp [List.isEmpty_iff, hrun]

/-- Any successful label match captures `+` followed by a nonempty run of
the phone character class. -/
theorem matchLabelAt_shape {lbl s : Str} {g : Str}
    (h : matchLabelAt lbl s = some g) :
    ∃ run, g = '+' :: run ∧ run ≠ [] ∧ ∀ c ∈ run, isPhoneChar c = true := by
  unfold matchLabelAt at h
  split at h
  · exact absurd h (by simp)
  · split at h
    · split at h
      · dsimp only at h
        split at h
        · exact absurd h (by simp)
        · rename_i hne
          rename_i r3 heq2
          refine ⟨r3.takeWhile isPhoneChar, by simpa using h.symm, ?_, ?_⟩
          · simpa [List.isEmpty_iff] using hne
          · intro c hc
            exact List.mem_takeWhile_imp hc
      · exact absurd h (by simp)
    · exact absurd h (by simp)

theorem matchLabelAt_none_of_head {c0 : Char} {lbl' : Str} {d : Char} {r : Str}
    (h : d ≠ c0) : matchLabelAt (c0 :: lbl') (d :: r) = none := by
  have hdl : dropLit (c0 :: lbl') (d :: r) = none := by
    simp [dropLit, Ne.symm h]
  unfold matchLabelAt
  rw [hdl]

theorem matchLabelAt_startsWithLabel {lbl s g : Str} (h : matchLabelAt lbl s = some g) :
    ∃ r, s = lbl ++ r := by
  unfold matchLabelAt at h
  split at h
  · exact absurd h (by simp)
  · rename_i r1 hr1
    exact ⟨r1, dropLit_eq_append hr1⟩

/-- If the label does not occur in the text, the label search fails. -/
theorem searchLabel_none_of_no_occurrence {lbl t : Str}
    (h : ∀ u v, t ≠ u ++ lbl ++ v) :
    searchWith (matchLabelAt lbl) t = none := by
  cases hs : searchWith (matchLabelAt lbl) t with
  | none => rfl
  | some g =>
    exfalso
    obtain ⟨suf, hsuf, hm⟩ := searchWith_some_suffix hs
    obtain ⟨r, hr⟩ := matchLabelAt_startsWithLabel hm
    obtain ⟨u, hu⟩ := hsuf
    exact h u r (by rw [← hu, hr, List.append_assoc])

theorem matchOpenMessAt_of_shape (d u post : Str)
    (hd : '\'' ∉ d) (hu : '\'' ∉ u) :
    matchOpenMessAt (chars "openMess('" ++
        (d ++ ('\'' :: ',' :: '\'' :: (u ++ ('\'' :: ')' :: post)))))
      = some (d, u) := by
  have hq : ∀ (l : Str), '\'' ∉ l → ∀ c ∈ l, (c != '\'') = true := by
    intro l hl c hc
    simp only [bne_iff_ne, ne_eq]
    intro hcq
    exact hl (hcq ▸ hc)
  have htd : (d ++ ('\'' :: ',' :: '\'' :: (u ++ ('\'' :: ')' :: post)))).takeWhile
      (fun c => c != '\'') = d := by
    rw [List.takeWhile_append_of_pos (hq d hd)]
    simp
  have hdd : (d ++ ('\'' :: ',' :: '\'' :: (u ++ ('\'' :: ')' :: post)))).dropWhile
      (fun c => c != '\'') = '\'' :: ',' :: '\'' :: (u ++ ('\'' :: ')' :: post)) := by
    rw [List.dropWhile_append_of_pos (hq d hd)]
    simp
  have htu : (u ++ ('\'' :: ')' :: post)).takeWhile (fun c => c != '\'') = u := by
    rw [List.takeWhile_append_of_pos (hq u hu)]
    simp
  have hdu : (u ++ ('\'' :: ')' :: post)).dropWhile (fun c => c != '\'')
      = '\'' :: ')' :: post := by
    rw [List.dropWhile_append_of_pos (hq u hu)]
    simp
  unfold matchOpenMessAt
  rw [dropLit_self_append]
  dsimp only
  rw [htd, hdd]
  have hsp : isSpace '\'' = false := rfl
  simp only [List.dropWhile_cons_of_neg (by simp [hsp] : ¬ isSpace '\'' = true)]
  rw [htu, hdu]
  rfl

theorem matchOpenMessAt_none_of_head {d : Char} {r : Str} (h : d ≠ 'o') :
    matchOpenMessAt (d :: r) = none := by
  have hdl : dropLit (chars "openMess('") (d :: r) = none := by
    simp [chars, dropLit, Ne.symm h]
  unfold matchOpenMessAt
  rw [hdl]

theorem matchOpenMessAt_startsWithLit {s : Str} {g : Str × Str}
    (h : matchOpenMessAt s = some g) : ∃ r, s = chars "openMess('" ++ r := by
  unfold matchOpenMessAt at h
  split at h
  · exact absurd h (by simp)
  · rename_i r1 hr1
    exact ⟨r1, dropLit_eq_append hr1⟩

/-- If `openMess('` does not occur in the link target, the e-mail regex
search fails. -/
theorem searchOpenMess_none_of_no_occurrence {t : Str}
    (h : ∀ u v, t ≠ u ++ chars "openMess('" ++ v) :
    searchWith matchOpenMessAt t = none := by
  cases hs : searchWith matchOpenMessAt t with
  | none => rfl
  | some g =>
    exfalso
    obtain ⟨suf, hsuf, hm⟩ := searchWith_some_suffix hs
    obtain ⟨r, hr⟩ := matchOpenMessAt_startsWithLit hm
    obtain ⟨u, hu⟩ := hsuf
    exact h u r (by rw [← hu, hr, List.append_assoc])

/-! ### Facts about the retry loop -/

theorem fetchLoop_all_retryable (o : Nat → AttemptOutcome) (retries : Nat)
    (ho : ∀ i, retryable (o i)) :
    ∀ (remaining attempt : Nat), attempt + remaining = retries + 1 →
      fetchLoop o retries attempt remaining =
        { attemptsMade := remaining,
          sleeps := (List.range' (attempt + 1) (remaining - 1)).map (· * 2),
          result := none } := by
  intro remaining
  induction remaining with
  | zero => intro attempt h; rfl
  | succ r ih =>
    intro attempt h
    have hfail : fetchLoop o retries attempt (r + 1) =
        if attempt < retries then
          let t := fetchLoop o retries (attempt + 1) r
          { attemptsMade := t.attemptsMade + 1,
            sleeps := (attempt + 1) * 2 :: t.sleeps,
            result := t.result }
        else
          let t := fetchLoop o retries (attempt + 1) r
          { attemptsMade := t.attemptsMade + 1,
            sleeps := t.sleeps,
            result := t.result } := by
      have hr := ho attempt
      rw [fetchLoop]
      cases hoa : o attempt with
      | success body =>
        rw [hoa] at hr
        simp [retryable] at hr
        simp [hr]
      | exitError => rfl
      | timeoutExpired => rfl
      | toolMissing => rw [hoa] at hr; exact absurd hr (by simp [retryable])
    by_cases hlt : attempt < retries
    · have hr1 : r ≠ 0 := by omega
      obtain ⟨r'', rfl⟩ := Nat.exists_eq_succ_of_ne_zero hr1
      rw [hfail, if_pos hlt]
      rw [ih (attempt + 1) (by omega)]
      simp [List.range']
    · have hr0 : r = 0 := by omega
      subst hr0
      rw [hfail, if_neg hlt]
      simp [fetchLoop, List.range']

/-! ### Claim C1 -/

/-- C1: a fetch whose every attempt fails retryably (non-success exit,
timeout, or empty body) makes exactly `retries + 1` attempts, sleeps
`(attempt index) * 2` seconds between consecutive attempts (`2, 4, …,
2 * retries`), does not sleep after the last failed attempt (the sleep
list has one entry fewer than the attempts), and returns failure without
any exception escaping (the embedded loop is total and yields `none`). -/
theorem fetch_all_attempts_fail (o : Nat → AttemptOutcome) (retries : Nat)
    (ho : ∀ i, retryable (o i)) :
    (fetch_html_with_curl o retries).attemptsMade = retries + 1 ∧
    (fetch_html_with_curl o retries).sleeps
      = (List.range' 1 retries).map (· * 2) ∧
    (fetch_html_with_curl o retries).result = none := by
  have h := fetchLoop_all_retryable o retries ho (retries + 1) 0 (by omega)
  rw [fetch_html_with_curl, h]
  simp

/-- Witness for C1 at `retries = 3` with every attempt exiting non-zero:
4 attempts, sleeps `[2, 4, 6]`, failure result. -/
theorem fetch_all_attempts_fail_witness :
    (∀ i, retryable ((fun _ : Nat => AttemptOutcome.exitError) i)) ∧
    (fetch_html_with_curl (fun _ : Nat => AttemptOutcome.exitError) 3).attemptsMade = 4 ∧
    (fetch_html_with_curl (fun _ : Nat => AttemptOutcome.exitError) 3).sleeps = [2, 4, 6] ∧
    (fetch_html_with_curl (fun _ : Nat => AttemptOutcome.exitError) 3).result = none := by
  have h := fetch_all_attempts_fail (fun _ : Nat => AttemptOutcome.exitError) 3
    (fun _ => trivial)
  exact ⟨fun _ => trivial, h.1, by rw [h.2.1]; rfl, h.2.2⟩

/-! ### Claim C9 -/

/-- C9: when the first `curl` invocation raises `FileNotFoundError`
(the tool is absent), the fetch returns failure immediately: one
invocation, no backoff sleep, result `None`, whatever the configured
retry count. -/
theorem fetch_tool_missing_aborts (o : Nat → AttemptOutcome) (retries : Nat)
    (h : o 0 = AttemptOutcome.toolMissing) :
    fetch_html_with_curl o retries
      = { attemptsMade := 1, sleeps := [], result := none } := by
  rw [fetch_html_with_curl, fetchLoop, h]

/-- Witness for C9 at `retries = 3`. -/
theorem fetch_tool_missing_aborts_witness :
    fetch_html_with_curl (fun _ : Nat => AttemptOutcome.toolMissing) 3
      = { attemptsMade := 1, sleeps := [], result := none } :=
  fetch_tool_missing_aborts (fun _ : Nat => AttemptOutcome.toolMissing) 3 rfl

/-! ### Claim C2 -/

theorem pyStrip_cons_nonspace {c : Char} (r : Str) (h : isSpace c = false) :
    pyStrip (c :: r) = c :: rstrip r := by
  rw [pyStrip, lstrip_of_head_nonspace r h, rstrip_cons_nonspace r h]

/-- A successful phone-label search yields a stripped capture that starts
with `+` (and so is nonempty). -/
theorem searchLabel_strip_plus {lbl t g : Str}
    (h : searchWith (matchLabelAt lbl) t = some g) :
    (pyStrip g).head? = some '+' ∧ pyStrip g ≠ [] := by
  obtain ⟨suf, _, hm⟩ := searchWith_some_suffix h
  obtain ⟨run, rfl, _, _⟩ := matchLabelAt_shape hm
  rw [pyStrip_cons_nonspace run (by decide)]
  simp

theorem extract_phones_fields (dr : DataRow) :
    ((ClubScraper.extract_phone_numbers dr).mobile_phone = NA ∨
      ((ClubScraper.extract_phone_numbers dr).mobile_phone).head? = some '+') ∧
    (ClubScraper.extract_phone_numbers dr).mobile_phone ≠ [] ∧
    ((ClubScraper.extract_phone_numbers dr).private_phone = NA ∨
      ((ClubScraper.extract_phone_numbers dr).private_phone).head? = some '+') ∧
    (ClubScraper.extract_phone_numbers dr).private_phone ≠ [] := by
  have hNA : (NA : Str) ≠ [] := by decide
  unfold ClubScraper.extract_phone_numbers
  split
  · rename_i contact tl heq
    constructor
    · cases hm : searchWith (matchLabelAt mobileLabel) contact with
      | none => simp
      | some g =>
        simp only
        exact Or.inr (searchLabel_strip_plus hm).1
    constructor
    · cases hm : searchWith (matchLabelAt mobileLabel) contact with
      | none => simpa using hNA
      | some g =>
        simpa using (searchLabel_strip_plus hm).2
    constructor
    · cases hm : searchWith (matchLabelAt privateLabel) contact with
      | none => simp
      | some g =>
        simp only
        exact Or.inr (searchLabel_strip_plus hm).1
    · cases hm : searchWith (matchLabelAt privateLabel) contact with
      | none => simpa using hNA
      | some g =>
        simpa using (searchLabel_strip_plus hm).2
  · exact ⟨Or.inl rfl, hNA, Or.inl rfl, hNA⟩

theorem extract_email_fields (dr : DataRow) :
    (ClubScraper.extract_email dr = NA ∨ '@' ∈ ClubScraper.extract_email dr) ∧
    ClubScraper.extract_email dr ≠ [] := by
  have hNA : (NA : Str) ≠ [] := by decide
  unfold ClubScraper.extract_email
  split
  · exact ⟨Or.inl rfl, hNA⟩
  · rename_i href heq
    cases hs : searchWith matchOpenMessAt href with
    | none => exact ⟨Or.inl rfl, hNA⟩
    | some du =>
      obtain ⟨dom, user⟩ := du
      refine ⟨Or.inr ?_, ?_⟩ <;> simp

/-- C2 counterexample: a heading whose `h5` element exists but has empty
text yields a record whose `role` field is the empty string — not the
sentinel and not a nonempty extracted value, contradicting “never the
empty string”. -/
theorem record_role_empty_counterexample :
    Option.map Record.role
        (ClubScraper.extract_trainer_info (chars "FC X")
          { h5Text := some [] }
          (some { ftName := some (chars "Jo"), openMessHref := none,
                  colMd6Texts := [] }))
      = some [] ∧ ([] : Str) ≠ NA := by decide

/-- C2 (amended): every record returned by the extractor has a nonempty
`name`; `mobile_phone`, `private_phone` and `email` are never empty and
are either the sentinel or an extracted value (a stripped `+`-led capture,
resp. a reconstructed address containing `@`); `role` is either the
sentinel or the heading's stripped title text — which may be the empty
string when the title element exists with no text. -/
theorem extract_record_fields (club : Str) (hb : HeadingBlock)
    (d : Option DataRow) (r : Record)
    (hr : ClubScraper.extract_trainer_info club hb d = some r) :
    r.name ≠ [] ∧
    r.mobile_phone ≠ [] ∧ r.private_phone ≠ [] ∧ r.email ≠ [] ∧
    (r.mobile_phone = NA ∨ r.mobile_phone.head? = some '+') ∧
    (r.private_phone = NA ∨ r.private_phone.head? = some '+') ∧
    (r.email = NA ∨ '@' ∈ r.email) ∧
    (r.role = NA ∨ hb.h5Text = some r.role) := by
  unfold ClubScraper.extract_trainer_info at hr
  split at hr
  · exact absurd hr (by simp)
  · rename_i dr
    split at hr
    · exact absurd hr (by simp)
    · rename_i name hname
      split at hr
      · exact absurd hr (by simp)
      · rename_i hnil
        have hrec := Option.some.inj hr
        subst hrec
        obtain ⟨hm1, hm2, hp1, hp2⟩ := extract_phones_fields dr
        obtain ⟨he1, he2⟩ := extract_email_fields dr
        refine ⟨hnil, hm2, hp2, he2, hm1, hp1, he1, ?_⟩
        unfold ClubScraper.extract_role
        cases hh : hb.h5Text with
        | none => exact Or.inl rfl
        | some t => exact Or.inr rfl

/-- Witness for C2 (amended) on a fully populated concrete fragment. -/
theorem extract_record_fields_witness :
    ClubScraper.extract_trainer_info (chars "FC X") { h5Text := some (chars "R") }
        (some { ftName := some (chars "Jo"),
                openMessHref := some (chars "javascript:openMess('x.ch','a')"),
                colMd6Texts := [[], chars "Mobile : +41 1"] })
      = some { club := chars "FC X", role := chars "R", name := chars "Jo",
               mobile_phone := chars "+41 1", private_phone := NA,
               email := chars "a@x.ch" } ∧
    (chars "Jo" ≠ [] ∧
     chars "+41 1" ≠ [] ∧ NA ≠ ([] : Str) ∧ chars "a@x.ch" ≠ [] ∧
     (chars "+41 1" = NA ∨ (chars "+41 1").head? = some '+') ∧
     (NA = NA ∨ (NA : Str).head? = some '+') ∧
     (chars "a@x.ch" = NA ∨ '@' ∈ chars "a@x.ch") ∧
     (chars "R" = NA ∨ (some (chars "R") : Option Str) = some (chars "R"))) := by
  constructor
  · decide
  · have h := extract_record_fields (chars "FC X") { h5Text := some (chars "R") }
      (some { ftName := some (chars "Jo"),
              openMessHref := some (chars "javascript:openMess('x.ch','a')"),
              colMd6Texts := [[], chars "Mobile : +41 1"] })
      { club := chars "FC X", role := chars "R", name := chars "Jo",
        mobile_phone := chars "+41 1", private_phone := NA,
        email := chars "a@x.ch" } (by decide)
    exact h

/-! ### Claim C6 -/

/-- C6: a link whose target contains `openMess('<domain>','<user>')`
(after a prefix such as `javascript:` that cannot start the pattern —
no `o` occurs in it) makes the extractor return `user@domain`; a data
block with no `openMess` link, or with a link target in which the call
pattern does not occur, yields the sentinel. -/
theorem extract_email_correct :
    (∀ (nm : Option Str) (cols : List Str) (pre dom user post : Str),
      (∀ c ∈ pre, c ≠ 'o') → '\'' ∉ dom → '\'' ∉ user →
      ClubScraper.extract_email
          { ftName := nm,
            openMessHref := some (pre ++ (chars "openMess('" ++
              (dom ++ ('\'' :: ',' :: '\'' ::
                (user ++ ('\'' :: ')' :: post)))))),
            colMd6Texts := cols }
        = user ++ '@' :: dom) ∧
    (∀ (nm : Option Str) (cols : List Str),
      ClubScraper.extract_email
          { ftName := nm, openMessHref := none, colMd6Texts := cols } = NA) ∧
    (∀ (nm : Option Str) (cols : List Str) (href : Str),
      (∀ u v, href ≠ u ++ chars "openMess('" ++ v) →
      ClubScraper.extract_email
          { ftName := nm, openMessHref := some href, colMd6Texts := cols }
        = NA) := by
  refine ⟨?_, ?_, ?_⟩
  · intro nm cols pre dom user post hpre hd hu
    have hskip : ∀ (c : Char) (r : Str), c ∈ pre →
        matchOpenMessAt (c :: r) = none :=
      fun c r hc => matchOpenMessAt_none_of_head (hpre c hc)
    have hsearch : searchWith matchOpenMessAt (pre ++ (chars "openMess('" ++
        (dom ++ ('\'' :: ',' :: '\'' :: (user ++ ('\'' :: ')' :: post))))))
        = some (dom, user) := by
      rw [searchWith_skip hskip]
      exact searchWith_of_match (matchOpenMessAt_of_shape dom user post hd hu)
    unfold ClubScraper.extract_email
    dsimp only
    rw [hsearch]
  · intro nm cols
    rfl
  · intro nm cols href h
    unfold ClubScraper.extract_email
    dsimp only
    rw [searchOpenMess_none_of_no_occurrence h]

/-- Witness for C6 on the spec's own example
`openMess('example.com','jdoe')`, plus the two sentinel cases. -/
theorem extract_email_correct_witness :
    ClubScraper.extract_email
        { ftName := none,
          openMessHref := some (chars "javascript:" ++ (chars "openMess('" ++
            (chars "example.com" ++ ('\'' :: ',' :: '\'' ::
              (chars "jdoe" ++ ('\'' :: ')' :: ([] : Str))))))),
          colMd6Texts := [] }
      = chars "jdoe" ++ '@' :: chars "example.com" ∧
    ClubScraper.extract_email
        { ftName := none, openMessHref := none, colMd6Texts := [] } = NA ∧
    ClubScraper.extract_email
        { ftName := none, openMessHref := some (chars "plain link"),
          colMd6Texts := [] } = NA := by
  refine ⟨?_, ?_, ?_⟩
  · exact extract_email_correct.1 none [] (chars "javascript:")
      (chars "example.com") (chars "jdoe") [] (by decide) (by decide) (by decide)
  · exact extract_email_correct.2.1 none []
  · refine extract_email_correct.2.2 none [] (chars "plain link") ?_
    have hni : ¬ (chars "openMess('" <:+: chars "plain link") := by decide
    intro u v huv
    exact hni ⟨u, v, huv.symm⟩

/-! ### Claim C3 -/

theorem mobileLabel_eq : mobileLabel = 'M' :: chars "obile" := rfl

theorem privateLabel_eq : privateLabel = 'T' :: chars "él privé" := rfl

/-- C3 (amended): in the second `div.col-md-6` text, a phone label
followed by `:` and a `+`-prefixed nonempty run of digits, whitespace and
parentheses is captured greedily and stripped into the corresponding
field — the `+` prefix is required by the regex, not optional; a label
whose pattern is absent (here: the label does not even occur) leaves the
field as the sentinel; the two labels are matched independently, each
conjunct constraining only its own label. -/
theorem extract_phones_correct :
    (∀ (nm hrf : Option Str) (c0 : Str) (rest : List Str)
        (pre w1 w2 run post : Str),
      (∀ c ∈ pre, c ≠ 'M') →
      (∀ c ∈ w1, isSpace c = true) → (∀ c ∈ w2, isSpace c = true) →
      run ≠ [] → (∀ c ∈ run, isPhoneChar c = true) →
      (∀ c, post.head? = some c → isPhoneChar c = false) →
      (ClubScraper.extract_phone_numbers
          { ftName := nm, openMessHref := hrf,
            colMd6Texts := c0 ::
              (pre ++ (mobileLabel ++ w1 ++ ':' ::
                (w2 ++ '+' :: (run ++ post)))) :: rest }).mobile_phone
        = pyStrip ('+' :: run)) ∧
    (∀ (nm hrf : Option Str) (c0 : Str) (rest : List Str)
        (pre w1 w2 run post : Str),
      (∀ c ∈ pre, c ≠ 'T') →
      (∀ c ∈ w1, isSpace c = true) → (∀ c ∈ w2, isSpace c = true) →
      run ≠ [] → (∀ c ∈ run, isPhoneChar c = true) →
      (∀ c, post.head? = some c → isPhoneChar c = false) →
      (ClubScraper.extract_phone_numbers
          { ftName := nm, openMessHref := hrf,
            colMd6Texts := c0 ::
              (pre ++ (privateLabel ++ w1 ++ ':' ::
                (w2 ++ '+' :: (run ++ post)))) :: rest }).private_phone
        = pyStrip ('+' :: run)) ∧
    (∀ (nm hrf : Option Str) (c0 : Str) (rest : List Str) (t : Str),
      (∀ u v, t ≠ u ++ mobileLabel ++ v) →
      (ClubScraper.extract_phone_numbers
          { ftName := nm, openMessHref := hrf,
            colMd6Texts := c0 :: t :: rest }).mobile_phone = NA) ∧
    (∀ (nm hrf : Option Str) (c0 : Str) (rest : List Str) (t : Str),
      (∀ u v, t ≠ u ++ privateLabel ++ v) →
      (ClubScraper.extract_phone_numbers
          { ftName := nm, openMessHref := hrf,
            colMd6Texts := c0 :: t :: rest }).private_phone = NA) := by
  refine ⟨?_, ?_, ?_, ?_⟩
  · intro nm hrf c0 rest pre w1 w2 run post hpre hw1 hw2 hrun hrunc hpost
    have hskip : ∀ (c : Char) (r : Str), c ∈ pre →
        matchLabelAt mobileLabel (c :: r) = none := by
      intro c r hc
      rw [mobileLabel_eq]
      exact matchLabelAt_none_of_head (hpre c hc)
    have hsearch : searchWith (matchLabelAt mobileLabel)
        (pre ++ (mobileLabel ++ w1 ++ ':' :: (w2 ++ '+' :: (run ++ post))))
        = some ('+' :: run) := by
      rw [searchWith_skip hskip]
      exact searchWith_of_match
        (matchLabelAt_of_shape mobileLabel w1 w2 run post hw1 hw2 hrun hrunc hpost)
    unfold ClubScraper.extract_phone_numbers
    dsimp only
    rw [hsearch]
  · intro nm hrf c0 rest pre w1 w2 run post hpre hw1 hw2 hrun hrunc hpost
    have hskip : ∀ (c : Char) (r : Str), c ∈ pre →
        matchLabelAt privateLabel (c :: r) = none := by
      intro c r hc
      rw [privateLabel_eq]
      exact matchLabelAt_none_of_head (hpre c hc)
    have hsearch : searchWith (matchLabelAt privateLabel)
        (pre ++ (privateLabel ++ w1 ++ ':' :: (w2 ++ '+' :: (run ++ post))))
        = some ('+' :: run) := by
      rw [searchWith_skip hskip]
      exact searchWith_of_match
        (matchLabelAt_of_shape privateLabel w1 w2 run post hw1 hw2 hrun hrunc hpost)
    unfold ClubScraper.extract_phone_numbers
    dsimp only
    rw [hsearch]
  · intro nm hrf c0 rest t ht
    unfold ClubScraper.extract_phone_numbers
    dsimp only
    rw [searchLabel_none_of_no_occurrence ht]
  · intro nm hrf c0 rest t ht
    unfold ClubScraper.extract_phone_numbers
    dsimp only
    rw [searchLabel_none_of_no_occurrence ht]

/-- C3 counterexample: the regex `(\+[\d\s\(\)]+)` demands the `+`; a
label followed by digits without the `+` prefix captures nothing, while
the claim (“optionally prefixed by `+`”) expects the digit sequence. -/
theorem phone_plus_required_counterexample :
    (ClubScraper.extract_phone_numbers
        { ftName := none, openMessHref := none,
          colMd6Texts := [[], chars "Mobile : 079 123 45 67"] }).mobile_phone
      = NA ∧ NA ≠ chars "079 123 45 67" := by decide

/-- Witness for C3 (amended) on the spec's example numbers, plus the
no-label sentinel cases. -/
theorem extract_phones_correct_witness :
    (ClubScraper.extract_phone_numbers
        { ftName := none, openMessHref := none,
          colMd6Texts := [[], chars "Mobile : +41 79 123 45 67"] }).mobile_phone
      = pyStrip ('+' :: chars "41 79 123 45 67") ∧
    (ClubScraper.extract_phone_numbers
        { ftName := none, openMessHref := none,
          colMd6Texts := [[], chars "Tél privé : +41 27 111 22 33"] }).private_phone
      = pyStrip ('+' :: chars "41 27 111 22 33") ∧
    (ClubScraper.extract_phone_numbers
        { ftName := none, openMessHref := none,
          colMd6Texts := [[], chars "no phone here"] }).mobile_phone = NA ∧
    (ClubScraper.extract_phone_numbers
        { ftName := none, openMessHref := none,
          colMd6Texts := [[], chars "no phone here"] }).private_phone = NA := by
  have hm : ¬ (mobileLabel <:+: chars "no phone here") := by decide
  have hp : ¬ (privateLabel <:+: chars "no phone here") := by decide
  refine ⟨?_, ?_, ?_, ?_⟩
  · exact extract_phones_correct.1 none none [] [] [] (chars " ") (chars " ")
      (chars "41 79 123 45 67") [] (by decide) (by decide) (by decide)
      (by decide) (by decide) (by decide)
  · exact extract_phones_correct.2.1 none none [] [] [] (chars " ") (chars " ")
      (chars "41 27 111 22 33") [] (by decide) (by decide) (by decide)
      (by decide) (by decide) (by decide)
  · exact extract_phones_correct.2.2.1 none none [] [] (chars "no phone here")
      (fun u v huv => hm ⟨u, v, huv.symm⟩)
  · exact extract_phones_correct.2.2.2 none none [] [] (chars "no phone here")
      (fun u v huv => hp ⟨u, v, huv.symm⟩)

/-! ### Facts about `clean_data` -/

/-- The cleaning pipeline acts row by row: the `dropna(how="all")` at the
end never fires, because `fillna` has already filled every cell. -/
theorem clean_data_eq_map_spec (t : Table) :
    DataProcessor.clean_data t = t.map cleanRowSpec := by
  induction t with
  | nil => rfl
  | cons r t ih =>
    show cleanRowSpec r :: DataProcessor.clean_data t
        = cleanRowSpec r :: t.map cleanRowSpec
    rw [ih]

theorem clean_data_length (t : Table) :
    (DataProcessor.clean_data t).length = t.length := by
  rw [clean_data_eq_map_spec]
  exact List.length_map t cleanRowSpec

theorem pyStrip_NA : pyStrip NA = NA := by decide

theorem collapseWs_NA : collapseWs NA = NA := by decide

theorem specCellString_idem (c : Option Str) (hc : cellOk c) :
    specCellString (some (specCellString c)) = specCellString c := by
  cases c with
  | none => decide
  | some s =>
    by_cases hs : s = []
    · subst hs
      decide
    · have hnpa : npaCell (some s) = s := by
        simp [npaCell, hs]
      have hps : pyStrip s ≠ [] := fun hp => hs (hc s rfl hp)
      have hnpa2 : npaCell (some (pyStrip s)) = pyStrip s := by
        simp [npaCell, hps]
      unfold specCellString
      rw [hnpa, hnpa2, pyStrip_idem]

theorem collapseWs_ne_nil_of_ne_nil {s : Str} (h : s ≠ []) :
    collapseWs s ≠ [] := by
  cases s with
  | nil => exact absurd rfl h
  | cons c r => exact collapseWs_ne_nil r

theorem specCellPhone_idem (c : Option Str) (hc : cellOk c) :
    specCellPhone (some (specCellPhone c)) = specCellPhone c := by
  cases c with
  | none => decide
  | some s =>
    by_cases hs : s = []
    · subst hs
      decide
    · have hnpa : npaCell (some s) = s := by simp [npaCell, hs]
      have hps : pyStrip s ≠ [] := fun hp => hs (hc s rfl hp)
      have hv : collapseWs (pyStrip s) ≠ [] := collapseWs_ne_nil_of_ne_nil hps
      have hnpa2 : npaCell (some (collapseWs (pyStrip s)))
          = collapseWs (pyStrip s) := by
        simp [npaCell, hv]
      unfold specCellPhone
      rw [hnpa, hnpa2, pyStrip_collapseWs_pyStrip, collapseWs_idem]

theorem cleanRowSpec_idem (r : DfRow) (h : rowOk r) :
    cleanRowSpec (cleanRowSpec r) = cleanRowSpec r := by
  obtain ⟨h1, h2, h3, h4, h5, h6⟩ := h
  unfold cleanRowSpec
  simp only [DfRow.mk.injEq]
  exact ⟨congrArg some (specCellString_idem r.club h1),
    congrArg some (specCellString_idem r.role h2),
    congrArg some (specCellString_idem r.name h3),
    congrArg some (specCellPhone_idem r.mobile_phone h4),
    congrArg some (specCellPhone_idem r.private_phone h5),
    congrArg some (specCellString_idem r.email h6)⟩

/-! ### Claim C4 -/

/-- C4: evaluation at the failing input.  A fully missing row is *not*
dropped by `clean_data`: `fillna("N/A")` runs before `dropna(how="all")`,
so the all-`NaN` row has become an all-`"N/A"` row by the time the drop
runs, and the output keeps one row where the claim (and the code's own
comment `# Remove completely empty rows`) expects zero. -/
theorem clean_data_keeps_all_missing_row :
    DataProcessor.clean_data
        [{ club := none, role := none, name := none, mobile_phone := none,
           private_phone := none, email := none }]
      = [{ club := some NA, role := some NA, name := some NA,
           mobile_phone := some NA, private_phone := some NA,
           email := some NA }] ∧
    (DataProcessor.clean_data
        [{ club := none, role := none, name := none, mobile_phone := none,
           private_phone := none, email := none }]).length = 1 := by decide

/-! ### Claim C5 -/

/-- C5 counterexample: a whitespace-only `club` cell breaks idempotence.
The first pass replaces `""` before stripping, so `" "` strips to the
empty string and stays; the second pass replaces that `""` by `"N/A"`. -/
theorem clean_data_not_idempotent :
    DataProcessor.clean_data (DataProcessor.clean_data
        [{ club := some (chars " "), role := some (chars "x"),
           name := some (chars "x"), mobile_phone := some (chars "x"),
           private_phone := some (chars "x"), email := some (chars "x") }])
      ≠ DataProcessor.clean_data
        [{ club := some (chars " "), role := some (chars "x"),
           name := some (chars "x"), mobile_phone := some (chars "x"),
           private_phone := some (chars "x"), email := some (chars "x") }] := by
  decide

/-- C5 (amended): `clean_data` is idempotent on every table none of whose
cells is a nonempty whitespace-only string (missing cells and any other
values are fine). -/
theorem clean_data_idem (t : Table) (h : ∀ r ∈ t, rowOk r) :
    DataProcessor.clean_data (DataProcessor.clean_data t)
      = DataProcessor.clean_data t := by
  rw [clean_data_eq_map_spec t, clean_data_eq_map_spec, List.map_map]
  exact List.map_congr_left
    (fun r hr => cleanRowSpec_idem r (h r hr))

/-- Witness for C5 (amended) on a one-row table with ordinary cells. -/
theorem clean_data_idem_witness :
    DataProcessor.clean_data (DataProcessor.clean_data
        [{ club := some (chars " FC X "), role := none,
           name := some (chars "Jo"), mobile_phone := some (chars "+41  79"),
           private_phone := some [], email := some (chars "a@b") }])
      = DataProcessor.clean_data
        [{ club := some (chars " FC X "), role := none,
           name := some (chars "Jo"), mobile_phone := some (chars "+41  79"),
           private_phone := some [], email := some (chars "a@b") }] := by
  apply clean_data_idem
  intro r hr
  rw [List.mem_singleton] at hr
  subst hr
  refine ⟨?_, ?_, ?_, ?_, ?_, ?_⟩ <;>
    (intro s hs hp
     dsimp only at hs
     cases hs
     all_goals (revert hp; decide))

/-! ### Claim C10 -/

/-- C10: `clean_data` does not mutate its argument.  In the explicit
object model the argument slot still holds the original table after the
call, the result is a freshly allocated object (a different slot), and
its value is the cleaned table. -/
theorem clean_data_no_mutation (t : Table) :
    (clean_data_heap [t] 0).1.getD 0 [] = t ∧
    (clean_data_heap [t] 0).2 ≠ 0 ∧
    (clean_data_heap [t] 0).1.getD ((clean_data_heap [t] 0).2) []
      = DataProcessor.clean_data t := by
  refine ⟨rfl, ?_, rfl⟩
  intro hzero
  exact Nat.succ_ne_zero 3 hzero

/-! ### Claim C7 -/

/-- C7: single-sheet combine fails (`False`, modelled `none`) exactly when
no valid file contributes; otherwise the written table is a permutation of
the concatenated cleaned rows of the valid files, its row count is the sum
of the valid files' data-row counts (cleaning preserves row counts), and
it is sorted ascending by the `(club, role, name)` key. -/
theorem combine_single_sheet_correct (files : List CsvFile) :
    (DataProcessor.combine_to_single_sheet files = none ↔
      files.filter (fun f => DataProcessor.validate_csv_structure f) = []) ∧
    (∀ out, DataProcessor.combine_to_single_sheet files = some out →
      out.length
        = ((files.filter (fun f => DataProcessor.validate_csv_structure f)).map
            (fun f => (f.parsed.getD ⟨[], []⟩).rows.length)).sum ∧
      out.Perm
        (((files.filter (fun f => DataProcessor.validate_csv_structure f)).map
            (fun f => DataProcessor.clean_data (f.parsed.getD ⟨[], []⟩).rows)).flatten) ∧
      List.Sorted rowLe out) := by
  constructor
  · unfold DataProcessor.combine_to_single_sheet
    by_cases he : ((files.filter (fun f => DataProcessor.validate_csv_structure f)).map
        (fun f => DataProcessor.clean_data (f.parsed.getD ⟨[], []⟩).rows)).isEmpty
    · rw [if_pos he]
      simp only [true_iff]
      exact (List.map_eq_nil_iff).mp (List.isEmpty_iff.mp he)
    · rw [if_neg he]
      constructor
      · intro h
        exact absurd h (by simp)
      · intro h
        exact absurd (List.isEmpty_iff.mpr ((List.map_eq_nil_iff).mpr h)) he
  · intro out hout
    unfold DataProcessor.combine_to_single_sheet at hout
    by_cases he : ((files.filter (fun f => DataProcessor.validate_csv_structure f)).map
        (fun f => DataProcessor.clean_data (f.parsed.getD ⟨[], []⟩).rows)).isEmpty
    · rw [if_pos he] at hout
      exact absurd hout (by simp)
    · rw [if_neg he] at hout
      have hout' := Option.some.inj hout
      have hperm : out.Perm (((files.filter
          (fun f => DataProcessor.validate_csv_structure f)).map
            (fun f => DataProcessor.clean_data (f.parsed.getD ⟨[], []⟩).rows)).flatten) := by
        rw [← hout']
        exact List.perm_insertionSort rowLe _
      refine ⟨?_, hperm, ?_⟩
      · rw [hperm.length_eq, List.length_flatten, List.map_map]
        congr 1
        exact List.map_congr_left
          (fun f _ => clean_data_length (f.parsed.getD ⟨[], []⟩).rows)
      · rw [← hout']
        exact List.sorted_insertionSort rowLe _

/-- Witness for C7: files with 3 and 5 records combine to exactly 8
sorted rows, and a sole invalid file makes combine fail. -/
theorem combine_single_sheet_witness :
    DataProcessor.combine_to_single_sheet [csvA, csvB]
      = some [wrow "a" "r" "n", wrow "b" "r" "n", wrow "c" "r" "n",
              wrow "d" "r" "n", wrow "e" "r" "n", wrow "f" "r" "n",
              wrow "g" "r" "n", wrow "h" "r" "n"] ∧
    ([wrow "a" "r" "n", wrow "b" "r" "n", wrow "c" "r" "n",
      wrow "d" "r" "n", wrow "e" "r" "n", wrow "f" "r" "n",
      wrow "g" "r" "n", wrow "h" "r" "n"] : Table).length = 8 ∧
    List.Sorted rowLe
      [wrow "a" "r" "n", wrow "b" "r" "n", wrow "c" "r" "n",
       wrow "d" "r" "n", wrow "e" "r" "n", wrow "f" "r" "n",
       wrow "g" "r" "n", wrow "h" "r" "n"] ∧
    DataProcessor.combine_to_single_sheet [csvHeaderOnly] = none := by
  have h := (combine_single_sheet_correct [csvA, csvB]).2
    [wrow "a" "r" "n", wrow "b" "r" "n", wrow "c" "r" "n",
     wrow "d" "r" "n", wrow "e" "r" "n", wrow "f" "r" "n",
     wrow "g" "r" "n", wrow "h" "r" "n"] (by decide)
  refine ⟨by decide, ?_, h.2.2, ?_⟩
  · rw [h.1]
    decide
  · exact (combine_single_sheet_correct [csvHeaderOnly]).1.mpr (by decide)

/-! ### Claim C8 -/

theorem summary_aux_errors_mem (f : CsvFile)
    (hf : DataProcessor.validate_csv_structure f = false) :
    ∀ (pre post : List CsvFile),
      fileName f ∈ (DataProcessor.summary_aux (pre ++ f :: post)).files_with_errors := by
  intro pre
  induction pre with
  | nil =>
    intro post
    show fileName f ∈ (DataProcessor.summary_aux (f :: post)).files_with_errors
    unfold DataProcessor.summary_aux
    rw [hf]
    simp
  | cons g rest ih =>
    intro post
    show fileName f ∈ (DataProcessor.summary_aux (g :: (rest ++ f :: post))).files_with_errors
    unfold DataProcessor.summary_aux
    by_cases hg : DataProcessor.validate_csv_structure g
    · rw [hg]
      exact ih post
    · rw [Bool.not_eq_true] at hg
      rw [hg]
      exact List.mem_cons_of_mem _ (ih post)

/-- C8: a Row Store File that parses but is missing a schema column (for
instance `email`), or has no data rows, fails validation; it contributes
nothing to either aggregation mode (removing it changes neither output)
and its filename is recorded in the summary's invalid-files list, while
aggregation proceeds over the remaining files. -/
theorem invalid_file_excluded (f : CsvFile) (rt : RawTable)
    (pre post : List CsvFile) (hp : f.parsed = some rt)
    (hbad : "email" ∉ rt.cols ∨ rt.rows = []) :
    DataProcessor.validate_csv_structure f = false ∧
    DataProcessor.combine_to_single_sheet (pre ++ f :: post)
      = DataProcessor.combine_to_single_sheet (pre ++ post) ∧
    DataProcessor.combine_to_separate_sheets (pre ++ f :: post)
      = DataProcessor.combine_to_separate_sheets (pre ++ post) ∧
    fileName f ∈ (DataProcessor.get_data_summary (pre ++ f :: post)).files_with_errors := by
  have hval : DataProcessor.validate_csv_structure f = false := by
    unfold DataProcessor.validate_csv_structure
    rw [hp]
    dsimp only
    cases hbad with
    | inl h =>
      have hcf : rt.cols.contains "email" = false := by
        cases hcc : rt.cols.contains "email"
        · rfl
        · exact absurd (List.elem_iff.mp hcc) h
      have hall : CSV_FIELDNAMES.all (fun c => rt.cols.contains c) = false := by
        cases hav : CSV_FIELDNAMES.all (fun c => rt.cols.contains c)
        · rfl
        · have := List.all_eq_true.mp hav "email" (by decide)
          rw [hcf] at this
          exact absurd this (by simp)
      rw [hall]
      rfl
    | inr h =>
      rw [h]
      simp
  have hfil : (pre ++ f :: post).filter
        (fun g => DataProcessor.validate_csv_structure g)
      = (pre ++ post).filter (fun g => DataProcessor.validate_csv_structure g) := by
    rw [List.filter_append, List.filter_append,
      List.filter_cons_of_neg (by rw [hval]; exact Bool.false_ne_true)]
  refine ⟨hval, ?_, ?_, ?_⟩
  · unfold DataProcessor.combine_to_single_sheet
    rw [hfil]
  · unfold DataProcessor.combine_to_separate_sheets
    rw [hfil]
  · exact summary_aux_errors_mem f hval pre post

/-- Witness for C8: a file missing the `email` column, between one valid
file and none, is excluded and reported; the header-only variant via the
`rows = []` branch of the hypothesis. -/
theorem invalid_file_excluded_witness :
    (DataProcessor.validate_csv_structure csvNoEmail = false ∧
     DataProcessor.combine_to_single_sheet [csvA, csvNoEmail]
       = DataProcessor.combine_to_single_sheet [csvA] ∧
     DataProcessor.combine_to_separate_sheets [csvA, csvNoEmail]
       = DataProcessor.combine_to_separate_sheets [csvA] ∧
     fileName csvNoEmail
       ∈ (DataProcessor.get_data_summary [csvA, csvNoEmail]).files_with_errors) ∧
    DataProcessor.validate_csv_structure csvHeaderOnly = false := by
  constructor
  · have h := invalid_file_excluded csvNoEmail
      ⟨["club", "role", "name", "mobile_phone", "private_phone"],
        [wrow "z" "r" "n"]⟩ [csvA] [] rfl (Or.inl (by decide))
    exact h
  · have h := invalid_file_excluded csvHeaderOnly ⟨CSV_FIELDNAMES, []⟩ [] []
      rfl (Or.inr rfl)
    exact h.1

end AvfScraper
